import Mathlib

/-!
Verification of the commissions module (rules, calculation, tax withholding,
transaction/payout lifecycle).

Python `Decimal` values are modelled as exact rationals (`ℚ`); `quantize`
with `ROUND_HALF_UP` at two decimal places is modelled by `quantize2`.
Python's stable `sorted` is modelled by a stable insertion sort.
Django querysets are modelled as lists in storage (insertion) order;
bulk `update(...)` calls are modelled as maps over the stored list.
-/

namespace Commissions

/-- Round to the nearest integer, ties away from zero
(`decimal.ROUND_HALF_UP`). -/
def roundHalfUpUnit (x : ℚ) : ℤ :=
  if 0 ≤ x then ⌊x + 1/2⌋ else -⌊-x + 1/2⌋

/-- Embeds `Decimal.quantize(Decimal('0.01'), rounding=ROUND_HALF_UP)`. -/
def quantize2 (x : ℚ) : ℚ :=
  (roundHalfUpUnit (x * 100) : ℚ) / 100

/-- Drop leading and trailing whitespace from a character list. -/
def stripChars (l : List Char) : List Char :=
  (((l.dropWhile Char.isWhitespace).reverse).dropWhile Char.isWhitespace).reverse

/-- Python's `str.strip()` with no arguments. -/
def pyStrip (s : String) : String :=
  ⟨stripChars s.data⟩

/-- Python's truthiness test on an optional integer id
(`None` and `0` are falsy). -/
def truthyId : Option ℕ → Bool
  | none => false
  | some n => n != 0

/-- Stable insertion into a list sorted by `le`
(keeps the inserted element before later elements with an equal key). -/
def insertLe (le : α → α → Bool) (a : α) : List α → List α
  | [] => [a]
  | b :: bs => if le a b then a :: b :: bs else b :: insertLe le a bs

/-- Stable sort by `le`; models Python's stable `sorted`/SQL `ORDER BY`
over a list in storage order. -/
def stableSort (le : α → α → Bool) : List α → List α
  | [] => []
  | a :: as => insertLe le a (stableSort le as)

/-- One entry of `CommissionRule.tier_thresholds`
(a `{min_amount, max_amount, rate}` JSON object). -/
structure Tier where
  min_amount : ℚ
  max_amount : Option ℚ
  rate : ℚ
  deriving DecidableEq, Repr

/-- The `CommissionRule.rule_type` choices. -/
inductive RuleType
  | flat
  | percentage
  | tiered
  deriving DecidableEq, Repr

/-- Embeds `models.CommissionRule` (the fields the calculation and matching
logic reads; scoping foreign keys are modelled by optional ids). -/
structure CommissionRule where
  name : String
  rule_type : RuleType
  rate : ℚ
  staff_id : Option ℕ := none
  service_id : Option ℕ := none
  category_id : Option ℕ := none
  product_id : Option ℕ := none
  tier_thresholds : List Tier := []
  effective_from : Option ℤ := none
  effective_until : Option ℤ := none
  priority : ℕ := 0
  is_active : Bool := true
  deriving DecidableEq, Repr

/-- Ascending-`min_amount` comparison used to sort tiers
(`sorted(self.tier_thresholds, key=lambda x: x.get('min_amount', 0))`). -/
def tierMinLe (a b : Tier) : Bool :=
  decide (a.min_amount ≤ b.min_amount)

/-- The tier-scanning loop inside `calculate_commission` for `tiered`
rules: first matching tier wins, otherwise zero. -/
def tierLoop (amount sales_volume : ℚ) : List Tier → ℚ
  | [] => 0
  | t :: ts =>
    match t.max_amount with
    | none =>
      if t.min_amount ≤ sales_volume then amount * (t.rate / 100)
      else tierLoop amount sales_volume ts
    | some mx =>
      if t.min_amount ≤ sales_volume ∧ sales_volume ≤ mx then
        amount * (t.rate / 100)
      else tierLoop amount sales_volume ts

/-- Embeds `CommissionRule.calculate_commission(amount, sales_volume)`. -/
def calculate_commission (r : CommissionRule) (amount : ℚ)
    (sales_volume : Option ℚ) : ℚ :=
  match r.rule_type with
  | .flat => r.rate
  | .percentage => amount * (r.rate / 100)
  | .tiered =>
    if r.tier_thresholds.isEmpty then 0
    else
      match sales_volume with
      | none => 0
      | some v => tierLoop amount v (stableSort tierMinLe r.tier_thresholds)

/-- Date-validity filter in `get_applicable_rules`
(`effective_from is null or ≤ today`, `effective_until is null or ≥ today`);
dates are modelled as integers. -/
def dateValid (today : ℤ) (r : CommissionRule) : Bool :=
  (match r.effective_from with
   | none => true
   | some d => decide (d ≤ today)) &&
  (match r.effective_until with
   | none => true
   | some d => decide (today ≤ d))

/-- The per-rule exclusion tests in the `get_applicable_rules` loop: a rule
is skipped when one of its scoping ids and the corresponding argument are
both truthy and unequal. -/
def ruleExcluded (r : CommissionRule)
    (staff_id service_id category_id product_id : Option ℕ) : Bool :=
  (truthyId r.staff_id && truthyId staff_id && (r.staff_id != staff_id)) ||
  (truthyId r.product_id && truthyId product_id && (r.product_id != product_id)) ||
  (truthyId r.category_id && truthyId category_id && (r.category_id != category_id)) ||
  (truthyId r.service_id && truthyId service_id && (r.service_id != service_id))

/-- Descending-priority comparison (`order_by('-priority')`). -/
def priorityDescLe (a b : CommissionRule) : Bool :=
  decide (b.priority ≤ a.priority)

/-- Embeds `CommissionService.get_applicable_rules`: `rules` is the stored rule
list in insertion order; active and date-valid rules are walked in
descending-priority order and the non-excluded ones collected. -/
def get_applicable_rules (rules : List CommissionRule) (today : ℤ)
    (staff_id service_id category_id product_id : Option ℕ) :
    List CommissionRule :=
  let base := (rules.filter (·.is_active)).filter (dateValid today)
  (stableSort priorityDescLe base).filter
    (fun r => !ruleExcluded r staff_id service_id category_id product_id)

/-- Embeds `models.CommissionsSettings` (the fields the service logic reads);
called `CommissionsConfig` at the service's import site. -/
structure CommissionsSettings where
  minimum_payout_amount : ℚ := 0
  apply_tax_withholding : Bool := false
  tax_withholding_rate : ℚ := 0
  deriving DecidableEq, Repr

/-- Embeds `CommissionsSettings.calculate_tax(commission_amount)`:
returns `(net, tax)`. -/
def calculate_tax (s : CommissionsSettings) (commission_amount : ℚ) :
    ℚ × ℚ :=
  if !s.apply_tax_withholding || decide (s.tax_withholding_rate ≤ 0) then
    (commission_amount, 0)
  else
    let tax := quantize2 (commission_amount * s.tax_withholding_rate / 100)
    (commission_amount - tax, tax)

/-- Embeds `CommissionService.calculate_with_tax(commission_amount, config)`:
returns `(net_amount, tax_amount)`. -/
def calculate_with_tax (config : CommissionsSettings)
    (commission_amount : ℚ) : ℚ × ℚ :=
  if !config.apply_tax_withholding || decide (config.tax_withholding_rate ≤ 0) then
    (commission_amount, 0)
  else
    let tax := quantize2 (commission_amount * (config.tax_withholding_rate / 100))
    (commission_amount - tax, tax)

/-- Embeds `models.CommissionTransaction` (the fields the lifecycle logic reads;
statuses kept as the source's string literals, foreign keys as optional
ids, `net_commission` optional as in the nullable pre-save state). -/
structure CommissionTransaction where
  id : ℕ
  staff_id : ℕ
  staff_name : String := ""
  sale_amount : ℚ := 0
  commission_rate : ℚ := 0
  commission_amount : ℚ := 0
  tax_amount : ℚ := 0
  net_commission : Option ℚ := none
  status : String := "pending"
  payout : Option ℕ := none
  transaction_date : ℤ := 0
  approved_at : Option ℤ := none
  notes : String := ""
  deriving DecidableEq, Repr

/-- Embeds `CommissionTransaction.save`: fills `net_commission` from
`commission_amount - tax_amount` when it is null, else leaves it. -/
def transactionSave (t : CommissionTransaction) : CommissionTransaction :=
  match t.net_commission with
  | none => { t with net_commission := some (t.commission_amount - t.tax_amount) }
  | some _ => t

/-- Embeds `CommissionService.create_transaction`: computes the tax split and
persists a new `pending` transaction (the `objects.create` call runs the
model's `save`). -/
def create_transaction (config : CommissionsSettings) (id staff_id : ℕ)
    (staff_name : String) (sale_amount commission_rate commission_amount : ℚ)
    (transaction_date : ℤ) (notes : String) : CommissionTransaction :=
  let nt := calculate_with_tax config commission_amount
  transactionSave
    { id := id, staff_id := staff_id, staff_name := staff_name,
      sale_amount := sale_amount, commission_rate := commission_rate,
      commission_amount := commission_amount,
      tax_amount := nt.2, net_commission := some nt.1,
      status := "pending", payout := none,
      transaction_date := transaction_date, notes := notes }

/-- Embeds `CommissionService.void_transaction`: guards, then cancels the
transaction, appending the void reason to its notes. -/
def void_transaction (t : CommissionTransaction) (reason : String) :
    Except String CommissionTransaction :=
  if t.status == "paid" then
    .error ("Cannot void a paid transaction")
  else if t.payout.isSome then
    .error ("Cannot void transaction that is part of a payout")
  else
    .ok { t with
          status := "cancelled",
          notes := if reason != "" then
              pyStrip (t.notes ++ "\nVoid reason: " ++ reason)
            else t.notes }

/-- Embeds `models.CommissionPayout` (the fields the lifecycle logic reads). -/
structure CommissionPayout where
  id : ℕ
  staff_id : ℕ
  staff_name : String := ""
  period_start : ℤ := 0
  period_end : ℤ := 0
  gross_amount : ℚ := 0
  tax_amount : ℚ := 0
  adjustments_amount : ℚ := 0
  net_amount : ℚ := 0
  transaction_count : ℕ := 0
  status : String := "draft"
  payment_method : String := ""
  payment_reference : String := ""
  paid_at : Option ℤ := none
  notes : String := ""
  deriving DecidableEq, Repr

/-- The stored state the payout workflow mutates: transactions and
payouts in insertion order. -/
structure LedgerState where
  transactions : List CommissionTransaction
  payouts : List CommissionPayout
  deriving DecidableEq, Repr

/-- The eligibility filter of `create_payout`: staff matches, status
`approved`, no payout link, transaction date within the period. -/
def payoutEligible (staff_id : ℕ) (period_start period_end : ℤ)
    (t : CommissionTransaction) : Bool :=
  t.staff_id == staff_id && t.status == "approved" && t.payout == none &&
  decide (period_start ≤ t.transaction_date) &&
  decide (t.transaction_date ≤ period_end)

/-- Embeds `CommissionService.create_payout`: selects the eligible transactions,
validates non-emptiness and the minimum-payout policy, then creates a
`pending` payout and links every selected transaction to it. Returns the
(possibly unchanged) state together with the payout-or-error pair the
service returns; the error paths return before any write. -/
def create_payout (config : CommissionsSettings) (st : LedgerState)
    (newId staff_id : ℕ) (staff_name : String)
    (period_start period_end : ℤ) (notes : String) :
    LedgerState × Option CommissionPayout × Option String :=
  let elig := st.transactions.filter (payoutEligible staff_id period_start period_end)
  if elig.isEmpty then
    (st, none, some ("No approved transactions found for this period"))
  else
    let gross_amount := (elig.map (·.commission_amount)).sum
    let tax_amount := (elig.map (·.tax_amount)).sum
    let transaction_count := elig.length
    if decide (config.minimum_payout_amount > 0) &&
        decide (gross_amount < config.minimum_payout_amount) then
      (st, none, some ("Total amount is below minimum payout"))
    else
      let payout : CommissionPayout :=
        { id := newId, staff_id := staff_id, staff_name := staff_name,
          period_start := period_start, period_end := period_end,
          gross_amount := gross_amount, tax_amount := tax_amount,
          adjustments_amount := 0,
          net_amount := gross_amount - tax_amount,
          transaction_count := transaction_count,
          status := "pending", notes := notes }
      ({ transactions := st.transactions.map (fun t =>
            if payoutEligible staff_id period_start period_end t then
              { t with payout := some newId }
            else t),
         payouts := st.payouts ++ [payout] },
       some payout, none)

/-- Replace the stored copy of a payout after a save. -/
def savePayout (ps : List CommissionPayout) (p : CommissionPayout) :
    List CommissionPayout :=
  ps.map (fun q => if q.id == p.id then p else q)

/-- Embeds `CommissionService.process_payout`: valid only from `pending` or
`approved`; completes the payout, stamps the payment fields, and marks
every linked transaction `paid`. Returns the state with the success flag
and error the service returns. -/
def process_payout (st : LedgerState) (p : CommissionPayout)
    (payment_method payment_reference : String) (now : ℤ) :
    LedgerState × Bool × Option String :=
  if p.status != "pending" && p.status != "approved" then
    (st, false, some ("Payout is " ++ p.status ++ ", cannot process"))
  else
    let p' := { p with
                status := "completed",
                payment_method := payment_method,
                payment_reference := payment_reference,
                paid_at := some now }
    ({ transactions := st.transactions.map (fun t =>
          if t.payout == some p.id then { t with status := "paid" } else t),
       payouts := savePayout st.payouts p' },
     true, none)

/-- Embeds `CommissionService.cancel_payout`: fails on a `completed` payout;
otherwise unlinks every linked transaction back to `approved` with no
payout, and cancels the payout, appending the reason to its notes. -/
def cancel_payout (st : LedgerState) (p : CommissionPayout)
    (reason : String) : LedgerState × Bool × Option String :=
  if p.status == "completed" then
    (st, false, some ("Cannot cancel a completed payout"))
  else
    let p' := { p with
                status := "cancelled",
                notes := if reason != "" then
                    pyStrip (p.notes ++ "\nCancellation reason: " ++ reason)
                  else p.notes }
    ({ transactions := st.transactions.map (fun t =>
          if t.payout == some p.id then
            { t with payout := none, status := "approved" }
          else t),
       payouts := savePayout st.payouts p' },
     true, none)

/-- The tier-selection test of the specification: `min_amount ≤ volume`
and (`max_amount` null or `volume ≤ max_amount`). -/
def tierMatch (sales_volume : ℚ) (t : Tier) : Bool :=
  decide (t.min_amount ≤ sales_volume) &&
  (match t.max_amount with
   | none => true
   | some mx => decide (sales_volume ≤ mx))

/-- The invariant `net_commission = commission_amount - tax_amount` of persisted
invariant of commission transactions. -/
def TransInv (t : CommissionTransaction) : Prop :=
  t.net_commission = some (t.commission_amount - t.tax_amount)

/-- The invariant holds of every stored transaction. -/
def StateInv (st : LedgerState) : Prop :=
  ∀ t ∈ st.transactions, TransInv t

-- Concrete fixtures used by witnesses and counterexamples.

/-- A percentage rule with a 2-decimal-place rate of `0.25`. -/
def percentRuleQuarter : CommissionRule :=
  { name := "Quarter", rule_type := .percentage, rate := 1/4 }

/-- The spec's example tiered rule
`[(0,1000,5%),(1000,5000,7.5%),(5000,null,10%)]`. -/
def exampleTieredRule : CommissionRule :=
  { name := "Tiered", rule_type := .tiered, rate := 0,
    tier_thresholds := [⟨0, some 1000, 5⟩, ⟨1000, some 5000, 15/2⟩,
                        ⟨5000, none, 10⟩] }

/-- Scenario rule A: percentage 10%, priority 10, global. -/
def ruleA : CommissionRule :=
  { name := "A", rule_type := .percentage, rate := 10, priority := 10 }

/-- Scenario rule B: percentage 15%, priority 20, scoped to staff 7. -/
def ruleB : CommissionRule :=
  { name := "B", rule_type := .percentage, rate := 15, priority := 20,
    staff_id := some 7 }

/-- Equal-priority rule stored first, with the lexicographically later
name. -/
def ruleZeta : CommissionRule :=
  { name := "zeta", rule_type := .percentage, rate := 5, priority := 5 }

/-- Equal-priority rule stored second, with the lexicographically earlier
name. -/
def ruleAlpha : CommissionRule :=
  { name := "alpha", rule_type := .percentage, rate := 5, priority := 5 }

/-- Settings with 15% tax withholding enabled. -/
def settings15 : CommissionsSettings :=
  { apply_tax_withholding := true, tax_withholding_rate := 15 }

/-- Settings with withholding disabled (rate left configured). -/
def settingsOff : CommissionsSettings :=
  { apply_tax_withholding := false, tax_withholding_rate := 15 }

/-- An approved, unlinked transaction inside the payout period. -/
def txApproved : CommissionTransaction :=
  { id := 1, staff_id := 1, commission_amount := 50, tax_amount := 5,
    net_commission := some 45, status := "approved",
    transaction_date := 10 }

/-- A ledger holding just `txApproved`. -/
def stOne : LedgerState := { transactions := [txApproved], payouts := [] }

/-- A pending payout with id 10. -/
def payoutPending : CommissionPayout :=
  { id := 10, staff_id := 1, status := "pending",
    gross_amount := 50, tax_amount := 5, net_amount := 45,
    transaction_count := 1 }

/-- A completed payout with id 11. -/
def payoutCompleted : CommissionPayout :=
  { id := 11, staff_id := 1, status := "completed" }

/-- An approved transaction linked to payout 10. -/
def txLinked : CommissionTransaction :=
  { id := 2, staff_id := 1, commission_amount := 50, tax_amount := 5,
    net_commission := some 45, status := "approved", payout := some 10,
    transaction_date := 10 }

/-- A ledger holding the linked transaction and the pending payout. -/
def stLinked : LedgerState :=
  { transactions := [txLinked], payouts := [payoutPending] }

/-- A cancelled, unlinked transaction carrying a previous void reason. -/
def txCancelled : CommissionTransaction :=
  { id := 3, staff_id := 1, status := "cancelled",
    notes := "Void reason: first" }

-- Helper lemmas.

theorem mem_insertLe {le : α → α → Bool} {a x : α} :
    ∀ {l : List α}, x ∈ insertLe le a l ↔ x = a ∨ x ∈ l := by
  intro l
  induction l with
  | nil => simp [insertLe]
  | cons b bs ih =>
    by_cases h : le a b = true
    · simp [insertLe, h]
    · simp only [insertLe, h, if_neg, Bool.not_eq_true, ite_false]
      simp [List.mem_cons, ih]
      tauto

theorem mem_stableSort {le : α → α → Bool} {x : α} :
    ∀ {l : List α}, x ∈ stableSort le l ↔ x ∈ l := by
  intro l
  induction l with
  | nil => simp [stableSort]
  | cons b bs ih => simp [stableSort, mem_insertLe, ih]

theorem pairwise_insertLe_priority {a : CommissionRule}
    {l : List CommissionRule}
    (h : l.Pairwise (fun x y => y.priority ≤ x.priority)) :
    (insertLe priorityDescLe a l).Pairwise
      (fun x y => y.priority ≤ x.priority) := by
  induction l with
  | nil => simp [insertLe]
  | cons b bs ih =>
    rcases List.pairwise_cons.mp h with ⟨hb, hbs⟩
    by_cases hle : priorityDescLe a b = true
    · have hba : b.priority ≤ a.priority := by
        simpa [priorityDescLe] using hle
      simp only [insertLe, hle, if_pos]
      refine List.pairwise_cons.mpr ⟨?_, h⟩
      intro y hy
      rcases List.mem_cons.mp hy with rfl | hy'
      · exact hba
      · exact le_trans (hb y hy') hba
    · have hab : a.priority ≤ b.priority := by
        have : ¬ b.priority ≤ a.priority := by
          simpa [priorityDescLe] using hle
        omega
      simp only [insertLe, hle, if_neg, Bool.not_eq_true, ite_false]
      refine List.pairwise_cons.mpr ⟨?_, ih hbs⟩
      intro y hy
      rcases mem_insertLe.mp hy with rfl | hy'
      · exact hab
      · exact hb y hy'

theorem pairwise_stableSort_priority (l : List CommissionRule) :
    (stableSort priorityDescLe l).Pairwise
      (fun x y => y.priority ≤ x.priority) := by
  induction l with
  | nil => simp [stableSort]
  | cons b bs ih => exact pairwise_insertLe_priority ih

theorem tierLoop_eq_find (amount v : ℚ) :
    ∀ l : List Tier,
      tierLoop amount v l =
        match l.find? (tierMatch v) with
        | some t => amount * (t.rate / 100)
        | none => 0 := by
  intro l
  induction l with
  | nil => rfl
  | cons t ts ih =>
    cases hmx : t.max_amount with
    | none =>
      by_cases hmin : t.min_amount ≤ v
      · simp [tierLoop, hmx, hmin, List.find?, tierMatch]
      · simp [tierLoop, hmx, hmin, List.find?, tierMatch, ih]
    | some mx =>
      by_cases hmin : t.min_amount ≤ v
      · by_cases hv : v ≤ mx
        · simp [tierLoop, hmx, hmin, hv, List.find?, tierMatch]
        · simp [tierLoop, hmx, hmin, hv, List.find?, tierMatch, ih]
      · simp [tierLoop, hmx, hmin, List.find?, tierMatch, ih]

theorem truthyId_ne_none {o : Option ℕ} (h : truthyId o = true) :
    o ≠ none := by
  cases o <;> simp [truthyId] at h ⊢

-- Claim theorems.

/-- C1 (counterexample): for the percentage rule with rate `0.25` and sale
amount `1`, `calculate_commission` returns `0.0025` — a value that is not
quantized to 2 decimal places, and that differs from its own round-half-up
2-decimal quantization. The claim's quantization clause is false. -/
theorem C1_counterexample :
    calculate_commission percentRuleQuarter 1 none = 1/400 ∧
    (calculate_commission percentRuleQuarter 1 none * 100).den ≠ 1 ∧
    quantize2 (calculate_commission percentRuleQuarter 1 none) ≠
      calculate_commission percentRuleQuarter 1 none := by
  refine ⟨?_, ?_, ?_⟩ <;>
    norm_num [calculate_commission, percentRuleQuarter, quantize2,
      roundHalfUpUnit]

/-- C1 (amended): for every rule with `rule_type = percentage` and every
sale amount, `calculate_commission` returns exactly
`amount * rate / 100`; the result is returned raw, without any
quantization to 2 decimal places. -/
theorem C1_percentage_exact (r : CommissionRule) (amount : ℚ)
    (sales_volume : Option ℚ) (h : r.rule_type = .percentage) :
    calculate_commission r amount sales_volume = amount * r.rate / 100 := by
  simp [calculate_commission, h, mul_div_assoc]

/-- C1 witness: the amended statement evaluated on the concrete
quarter-percent rule. -/
theorem C1_percentage_exact_witness :
    calculate_commission percentRuleQuarter 1 none =
      1 * percentRuleQuarter.rate / 100 :=
  C1_percentage_exact percentRuleQuarter 1 none rfl

/-- C2: for tiered rules, an absent volume or empty threshold list yields
exactly zero; otherwise the result is the rate of the first tier — in
ascending `min_amount` order — whose `min_amount ≤ volume` and whose
`max_amount` is null or `≥ volume`, applied as a percentage of the sale
amount, and zero when no tier matches; on the spec's example tiers
`[(0,1000,5%),(1000,5000,7.5%),(5000,null,10%)]` the sale amount 100
yields 5, 7.5 and 10 at volumes 500, 2000 and 10000. -/
theorem C2_tiered_rules (r : CommissionRule) (amount : ℚ)
    (h : r.rule_type = .tiered) :
    (calculate_commission r amount none = 0) ∧
    (r.tier_thresholds = [] →
      ∀ v, calculate_commission r amount (some v) = 0) ∧
    (∀ v, calculate_commission r amount (some v) =
      match (stableSort tierMinLe r.tier_thresholds).find? (tierMatch v) with
      | some t => amount * (t.rate / 100)
      | none => 0) ∧
    calculate_commission exampleTieredRule 100 (some 500) = 5 ∧
    calculate_commission exampleTieredRule 100 (some 2000) = 15/2 ∧
    calculate_commission exampleTieredRule 100 (some 10000) = 10 := by
  refine ⟨?_, ?_, ?_, ?_, ?_, ?_⟩
  · cases hh : r.tier_thresholds.isEmpty <;>
      simp [calculate_commission, h, hh]
  · intro he v
    simp [calculate_commission, h, he]
  · intro v
    cases hh : r.tier_thresholds with
    | nil => simp [calculate_commission, h, hh, stableSort, List.find?]
    | cons a as =>
      have : r.tier_thresholds.isEmpty = false := by simp [hh]
      simp only [calculate_commission, h, this, Bool.false_eq_true,
        if_false, hh]
      exact tierLoop_eq_find amount v _
  · norm_num [calculate_commission, exampleTieredRule, stableSort,
      insertLe, tierMinLe, tierLoop]
  · norm_num [calculate_commission, exampleTieredRule, stableSort,
      insertLe, tierMinLe, tierLoop]
  · norm_num [calculate_commission, exampleTieredRule, stableSort,
      insertLe, tierMinLe, tierLoop]

/-- C2 witness: the tiered behaviour evaluated on the spec's example
rule. -/
theorem C2_tiered_rules_witness :
    calculate_commission exampleTieredRule 100 (some 500) = 5 :=
  (C2_tiered_rules exampleTieredRule 100 rfl).2.2.2.1

/-- C3 (counterexample): two active, date-valid, global rules with equal
priority, stored with the lexicographically later name first, are
returned in storage order — not in name order — so ties are not broken
by name. -/
theorem C3_counterexample :
    ruleZeta.priority = ruleAlpha.priority ∧
    ruleAlpha.name.data < ruleZeta.name.data ∧
    get_applicable_rules [ruleZeta, ruleAlpha] 0 none none none none =
      [ruleZeta, ruleAlpha] ∧
    get_applicable_rules [ruleZeta, ruleAlpha] 0 none none none none ≠
      [ruleAlpha, ruleZeta] := by
  have hres : get_applicable_rules [ruleZeta, ruleAlpha] 0 none none none
      none = [ruleZeta, ruleAlpha] := by
    norm_num [get_applicable_rules, ruleZeta, ruleAlpha, stableSort,
      insertLe, priorityDescLe, dateValid, ruleExcluded, truthyId,
      List.filter]
  refine ⟨rfl, by decide, hres, ?_⟩
  intro hEq
  rw [hres] at hEq
  simp [ruleZeta, ruleAlpha] at hEq

/-- C3 (amended): `get_applicable_rules` returns active, date-valid rules
whose truthy scoping fields all match, in descending priority order; ties
keep the underlying storage order (the code orders by priority only — name
is not a tie-break). In the scenario with global rule A (10%, priority 10)
and staff-scoped rule B (15%, priority 20), `applicable_rules(staff=7)`
returns exactly `[B, A]`. -/
theorem C3_applicable_rules (rules : List CommissionRule) (today : ℤ)
    (s sv c p : Option ℕ) :
    (∀ r ∈ get_applicable_rules rules today s sv c p,
        r ∈ rules ∧ r.is_active = true ∧ dateValid today r = true ∧
        ruleExcluded r s sv c p = false) ∧
    (∀ r ∈ rules, r.is_active = true → dateValid today r = true →
        ruleExcluded r s sv c p = false →
        r ∈ get_applicable_rules rules today s sv c p) ∧
    (get_applicable_rules rules today s sv c p).Pairwise
      (fun a b => b.priority ≤ a.priority) ∧
    get_applicable_rules [ruleA, ruleB] 0 (some 7) none none none =
      [ruleB, ruleA] := by
  refine ⟨?_, ?_, ?_, ?_⟩
  · intro r hr
    simp only [get_applicable_rules, List.mem_filter] at hr
    rcases hr with ⟨hsort, hpred⟩
    have hbase := mem_stableSort.mp hsort
    simp only [List.mem_filter] at hbase
    refine ⟨hbase.1.1, by simpa using hbase.1.2, hbase.2, ?_⟩
    simpa using hpred
  · intro r hr hact hdate hexc
    simp only [get_applicable_rules, List.mem_filter]
    refine ⟨mem_stableSort.mpr ?_, by simp [hexc]⟩
    simp only [List.mem_filter]
    exact ⟨⟨hr, by simpa using hact⟩, hdate⟩
  · exact List.Pairwise.sublist (List.filter_sublist _)
      (pairwise_stableSort_priority _)
  · norm_num [get_applicable_rules, ruleA, ruleB, stableSort, insertLe,
      priorityDescLe, dateValid, ruleExcluded, truthyId, List.filter]

/-- C3 witness: the scenario conjunct evaluated concretely. -/
theorem C3_applicable_rules_witness :
    get_applicable_rules [ruleA, ruleB] 0 (some 7) none none none =
      [ruleB, ruleA] :=
  (C3_applicable_rules [] 0 none none none none).2.2.2

/-- C4: the tax split returns `(commission, 0)` when withholding is
disabled or the rate is `≤ 0`, and otherwise
`tax = round_half_up(commission * rate / 100, 2)` with
`net = commission - tax`; concretely, rate 15% on 100.00 gives
`(85.00, 15.00)` and disabled gives `(100.00, 0.00)`. Both the service's
`calculate_with_tax` and the model's `calculate_tax` agree. -/
theorem C4_tax_split (config : CommissionsSettings) (amount : ℚ) :
    ((config.apply_tax_withholding = false ∨
        config.tax_withholding_rate ≤ 0) →
      calculate_with_tax config amount = (amount, 0) ∧
      calculate_tax config amount = (amount, 0)) ∧
    (config.apply_tax_withholding = true →
      0 < config.tax_withholding_rate →
      calculate_with_tax config amount =
        (amount - quantize2 (amount * config.tax_withholding_rate / 100),
         quantize2 (amount * config.tax_withholding_rate / 100)) ∧
      calculate_tax config amount =
        (amount - quantize2 (amount * config.tax_withholding_rate / 100),
         quantize2 (amount * config.tax_withholding_rate / 100))) ∧
    calculate_with_tax settings15 100 = (85, 15) ∧
    calculate_tax settings15 100 = (85, 15) ∧
    calculate_with_tax settingsOff 100 = (100, 0) := by
  refine ⟨?_, ?_, ?_, ?_, ?_⟩
  · rintro (h | h) <;>
      simp [calculate_with_tax, calculate_tax, h]
  · intro ha hr
    have : ¬ config.tax_withholding_rate ≤ 0 := not_le.mpr hr
    simp [calculate_with_tax, calculate_tax, ha, this, mul_div_assoc]
  · norm_num [calculate_with_tax, settings15, quantize2, roundHalfUpUnit,
      Prod.ext_iff]
  · norm_num [calculate_tax, settings15, quantize2, roundHalfUpUnit,
      Prod.ext_iff]
  · norm_num [calculate_with_tax, settingsOff]

/-- C4 witness: the disabled branch evaluated on concrete settings. -/
theorem C4_tax_split_witness :
    calculate_with_tax settingsOff 100 = (100, 0) ∧
    calculate_tax settingsOff 100 = (100, 0) :=
  (C4_tax_split settingsOff 100).1 (Or.inl rfl)

/-- C9: in `get_applicable_rules` a rule is excluded only when one of its
scoping fields and the corresponding argument are both non-null (indeed
truthy) and unequal, so a `None` argument never excludes anything; a call
with all scoping arguments `None` returns every active, date-valid rule —
including scoped ones — in descending-priority order. -/
theorem C9_none_scoping (rules : List CommissionRule) (today : ℤ)
    (s sv c p : Option ℕ) (r : CommissionRule) :
    (ruleExcluded r s sv c p = true →
      (r.staff_id ≠ none ∧ s ≠ none ∧ r.staff_id ≠ s) ∨
      (r.product_id ≠ none ∧ p ≠ none ∧ r.product_id ≠ p) ∨
      (r.category_id ≠ none ∧ c ≠ none ∧ r.category_id ≠ c) ∨
      (r.service_id ≠ none ∧ sv ≠ none ∧ r.service_id ≠ sv)) ∧
    get_applicable_rules rules today none none none none =
      stableSort priorityDescLe
        ((rules.filter (·.is_active)).filter (dateValid today)) ∧
    (∀ r' ∈ rules, r'.is_active = true → dateValid today r' = true →
      r' ∈ get_applicable_rules rules today none none none none) := by
  refine ⟨?_, ?_, ?_⟩
  · intro h
    simp only [ruleExcluded, Bool.or_eq_true, Bool.and_eq_true,
      bne_iff_ne] at h
    rcases h with ((⟨⟨h1, h2⟩, h3⟩ | ⟨⟨h1, h2⟩, h3⟩) | ⟨⟨h1, h2⟩, h3⟩) |
        ⟨⟨h1, h2⟩, h3⟩
    · exact Or.inl ⟨truthyId_ne_none h1, truthyId_ne_none h2, h3⟩
    · exact Or.inr (Or.inl ⟨truthyId_ne_none h1, truthyId_ne_none h2, h3⟩)
    · exact Or.inr (Or.inr (Or.inl
        ⟨truthyId_ne_none h1, truthyId_ne_none h2, h3⟩))
    · exact Or.inr (Or.inr (Or.inr
        ⟨truthyId_ne_none h1, truthyId_ne_none h2, h3⟩))
  · simp [get_applicable_rules, ruleExcluded, truthyId]
  · intro r' hr' hact hdate
    simp only [get_applicable_rules, List.mem_filter]
    refine ⟨mem_stableSort.mpr ?_, by simp [ruleExcluded, truthyId]⟩
    simp only [List.mem_filter]
    exact ⟨⟨hr', by simpa using hact⟩, hdate⟩

/-- C9 witness: a staff-scoped rule is excluded for a mismatching staff
argument, and the exclusion indeed involves two non-null, unequal ids. -/
theorem C9_none_scoping_witness :
    (ruleB.staff_id ≠ none ∧ (some 8 : Option ℕ) ≠ none ∧
      ruleB.staff_id ≠ some 8) ∨
    (ruleB.product_id ≠ none ∧ (none : Option ℕ) ≠ none ∧
      ruleB.product_id ≠ none) ∨
    (ruleB.category_id ≠ none ∧ (none : Option ℕ) ≠ none ∧
      ruleB.category_id ≠ none) ∨
    (ruleB.service_id ≠ none ∧ (none : Option ℕ) ≠ none ∧
      ruleB.service_id ≠ none) :=
  (C9_none_scoping [] 0 (some 8) none none none ruleB).1 (by decide)

/-- C10: `void_transaction` fails exactly on a `paid` status or a non-null
payout link; on every other status — `pending` and already-`cancelled`
included — it succeeds, sets the status to `cancelled` and appends the
void reason to the notes, so `cancelled` is not terminal for void. -/
theorem C10_void_transaction (t : CommissionTransaction) (reason : String) :
    (t.status = "paid" →
      void_transaction t reason =
        .error ("Cannot void a paid transaction")) ∧
    (t.status ≠ "paid" → t.payout.isSome = true →
      void_transaction t reason =
        .error ("Cannot void transaction that is part of a payout")) ∧
    (t.status ≠ "paid" → t.payout = none →
      void_transaction t reason = .ok ({ t with
        status := "cancelled",
        notes := if reason != "" then
            pyStrip (t.notes ++ "\nVoid reason: " ++ reason)
          else t.notes })) ∧
    void_transaction txCancelled ("again") =
      .ok ({ txCancelled with
             status := "cancelled",
             notes := ("Void reason: first\nVoid reason: again") }) := by
  refine ⟨?_, ?_, ?_, ?_⟩
  · intro h
    simp [void_transaction, h]
  · intro h hp
    simp [void_transaction, h, hp]
  · intro h hp
    simp [void_transaction, h, hp]
  · have h3 : void_transaction txCancelled ("again") =
        .ok ({ txCancelled with
               status := "cancelled",
               notes := if ("again" : String) != "" then
                   pyStrip (txCancelled.notes ++ "\nVoid reason: " ++
                     "again")
                 else txCancelled.notes }) := by
      simp [void_transaction, txCancelled]
    rw [h3]
    have : (if ("again" : String) != "" then
        pyStrip (txCancelled.notes ++ "\nVoid reason: " ++ "again")
      else txCancelled.notes) =
        ("Void reason: first\nVoid reason: again") := by decide
    rw [this]

/-- C10 witness: voiding an already-cancelled transaction succeeds
again. -/
theorem C10_void_transaction_witness :
    void_transaction txCancelled ("x") = .ok ({ txCancelled with
      status := "cancelled",
      notes := if ("x" : String) != "" then
          pyStrip (txCancelled.notes ++ "\nVoid reason: " ++ "x")
        else txCancelled.notes }) :=
  (C10_void_transaction txCancelled ("x")).2.2.1 (by decide) rfl

/-- C6: `cancel_payout` fails exactly on a `completed` payout; on any
other status it succeeds, returns every previously linked transaction to
`status = approved` with `payout = null`, and stores the payout as
`cancelled`. -/
theorem C6_cancel_payout (st : LedgerState) (p : CommissionPayout)
    (reason : String) :
    (p.status = "completed" →
      cancel_payout st p reason =
        (st, false, some ("Cannot cancel a completed payout"))) ∧
    (p.status ≠ "completed" →
      (cancel_payout st p reason).2.1 = true ∧
      (cancel_payout st p reason).2.2 = none ∧
      (∀ t ∈ st.transactions, t.payout = some p.id →
        { t with payout := none, status := "approved" } ∈
          (cancel_payout st p reason).1.transactions) ∧
      (∀ t ∈ (cancel_payout st p reason).1.transactions,
        t.payout ≠ some p.id) ∧
      (∀ q ∈ (cancel_payout st p reason).1.payouts, q.id = p.id →
        q.status = "cancelled")) := by
  constructor
  · intro h
    simp [cancel_payout, h]
  · intro h
    have hb : (p.status == "completed") = false := by
      simpa using h
    refine ⟨by simp [cancel_payout, hb], by simp [cancel_payout, hb],
      ?_, ?_, ?_⟩
    · intro t ht hlink
      simp only [cancel_payout, hb, Bool.false_eq_true, if_false]
      exact List.mem_map.mpr ⟨t, ht, by simp [hlink]⟩
    · intro t ht
      simp only [cancel_payout, hb, Bool.false_eq_true, if_false] at ht
      rcases List.mem_map.mp ht with ⟨u, _, rfl⟩
      by_cases hu : u.payout = some p.id
      · simp [hu]
      · simp [hu]
    · intro q hq hid
      simp only [cancel_payout, hb, Bool.false_eq_true, if_false,
        savePayout] at hq
      rcases List.mem_map.mp hq with ⟨u, _, rfl⟩
      by_cases hu : (u.id == p.id) = true
      · simp [hu]
      · simp only [hu, Bool.false_eq_true, if_false] at hid ⊢
        exact absurd hid (by simpa using hu)

/-- C6 witness: cancelling the concrete pending payout succeeds. -/
theorem C6_cancel_payout_witness :
    (cancel_payout stLinked payoutPending ("late")).2.1 = true :=
  ((C6_cancel_payout stLinked payoutPending ("late")).2 (by decide)).1

/-- C7: `process_payout` succeeds only from `pending` or `approved`,
failing with the current state named otherwise; on success it stores the
payout as `completed` with non-null `paid_at` and the payment fields
stamped, and flips every linked transaction to `paid`. -/
theorem C7_process_payout (st : LedgerState) (p : CommissionPayout)
    (m ref : String) (now : ℤ) :
    (p.status ≠ "pending" → p.status ≠ "approved" →
      process_payout st p m ref now =
        (st, false, some ("Payout is " ++ p.status ++ ", cannot process"))) ∧
    (p.status = "pending" ∨ p.status = "approved" →
      (process_payout st p m ref now).2.1 = true ∧
      (process_payout st p m ref now).2.2 = none ∧
      (∀ t ∈ st.transactions, t.payout = some p.id →
        { t with status := "paid" } ∈
          (process_payout st p m ref now).1.transactions) ∧
      (∀ q ∈ (process_payout st p m ref now).1.payouts, q.id = p.id →
        q.status = "completed" ∧ q.paid_at = some now ∧
        q.payment_method = m ∧ q.payment_reference = ref)) := by
  constructor
  · intro h1 h2
    simp [process_payout, h1, h2]
  · intro h
    have hb : (p.status != "pending" && p.status != "approved") = false := by
      rcases h with h | h <;> simp [h]
    refine ⟨by simp [process_payout, hb], by simp [process_payout, hb],
      ?_, ?_⟩
    · intro t ht hlink
      simp only [process_payout, hb, Bool.false_eq_true, if_false]
      exact List.mem_map.mpr ⟨t, ht, by simp [hlink]⟩
    · intro q hq hid
      simp only [process_payout, hb, Bool.false_eq_true, if_false,
        savePayout] at hq
      rcases List.mem_map.mp hq with ⟨u, _, rfl⟩
      by_cases hu : (u.id == p.id) = true
      · simp [hu]
      · simp only [hu, Bool.false_eq_true, if_false] at hid ⊢
        exact absurd hid (by simpa using hu)

/-- C7 witness: processing the concrete pending payout succeeds. -/
theorem C7_process_payout_witness :
    (process_payout stLinked payoutPending ("cash") ("ref1") 99).2.1 =
      true :=
  ((C7_process_payout stLinked payoutPending ("cash") ("ref1") 99).2
    (Or.inl rfl)).1

theorem calculate_with_tax_net (config : CommissionsSettings) (a : ℚ) :
    (calculate_with_tax config a).1 = a - (calculate_with_tax config a).2 := by
  by_cases h : (!config.apply_tax_withholding ||
      decide (config.tax_withholding_rate ≤ 0)) = true <;>
    simp [calculate_with_tax, h]

/-- C8: `net_commission = commission_amount - tax_amount` holds of every
persisted transaction: `create_transaction` establishes it, the model
`save` establishes it when `net_commission` is null and preserves it
otherwise, and the payout workflow operations (`create_payout`,
`process_payout`, `cancel_payout`) never touch the amount fields, so they
preserve it for every stored transaction. -/
theorem C8_net_commission_invariant :
    (∀ config id staff_id staff_name sale_amount commission_rate
        commission_amount transaction_date notes,
      TransInv (create_transaction config id staff_id staff_name
        sale_amount commission_rate commission_amount transaction_date
        notes)) ∧
    (∀ t, TransInv t → TransInv (transactionSave t)) ∧
    (∀ t, t.net_commission = none → TransInv (transactionSave t)) ∧
    (∀ config st newId staff_id staff_name ps pe notes, StateInv st →
      StateInv (create_payout config st newId staff_id staff_name ps pe
        notes).1) ∧
    (∀ st p m ref now, StateInv st →
      StateInv (process_payout st p m ref now).1) ∧
    (∀ st p reason, StateInv st →
      StateInv (cancel_payout st p reason).1) := by
  refine ⟨?_, ?_, ?_, ?_, ?_, ?_⟩
  · intro config id staff_id staff_name sa cr ca td notes
    simp only [create_transaction, transactionSave, TransInv]
    exact congrArg some (calculate_with_tax_net config ca)
  · intro t h
    simp only [TransInv] at h ⊢
    simp [transactionSave, h]
  · intro t h
    simp [transactionSave, h, TransInv]
  · intro config st newId staff_id staff_name ps pe notes hinv
    by_cases hE :
        (st.transactions.filter (payoutEligible staff_id ps pe)).isEmpty =
          true
    · simpa [create_payout, hE] using hinv
    · by_cases hm : (decide (config.minimum_payout_amount > 0) &&
          decide (((st.transactions.filter
              (payoutEligible staff_id ps pe)).map
            (·.commission_amount)).sum < config.minimum_payout_amount)) =
          true
      · simpa [create_payout, hE, hm] using hinv
      · intro t ht
        simp only [create_payout, hE, hm, Bool.false_eq_true, if_false,
          List.mem_map] at ht
        rcases ht with ⟨u, hu, rfl⟩
        have := hinv u hu
        by_cases he : payoutEligible staff_id ps pe u = true <;>
          simp [he, TransInv] at this ⊢ <;> exact this
  · intro st p m ref now hinv
    by_cases hb : (p.status != "pending" && p.status != "approved") = true
    · simpa [process_payout, hb] using hinv
    · intro t ht
      simp only [process_payout, hb, Bool.false_eq_true, if_false,
        List.mem_map] at ht
      rcases ht with ⟨u, hu, rfl⟩
      have := hinv u hu
      by_cases he : u.payout = some p.id <;>
        simp [he, TransInv] at this ⊢ <;> exact this
  · intro st p reason hinv
    by_cases hb : (p.status == "completed") = true
    · simpa [cancel_payout, hb] using hinv
    · intro t ht
      simp only [cancel_payout, hb, Bool.false_eq_true, if_false,
        List.mem_map] at ht
      rcases ht with ⟨u, hu, rfl⟩
      have := hinv u hu
      by_cases he : u.payout = some p.id <;>
        simp [he, TransInv] at this ⊢ <;> exact this

/-- C8 witness: the save hook preserves the invariant on a concrete
persisted transaction. -/
theorem C8_net_commission_invariant_witness :
    TransInv (transactionSave txApproved) :=
  C8_net_commission_invariant.2.1 txApproved
    (by norm_num [TransInv, txApproved])

/-- C5: `create_payout` fails — creating no payout and leaving the state
untouched — exactly when no transaction is eligible (matching staff,
`approved`, unlinked, dated within the period) or when the configured
minimum payout amount is positive and the summed gross
`commission_amount` of the eligible set is below it; otherwise it creates
a `pending` payout with `gross = sum(commission_amount)`,
`tax = sum(tax_amount)`, `net = gross - tax`, and links every eligible
transaction to it with status unchanged at `approved`. -/
theorem C5_create_payout (config : CommissionsSettings) (st : LedgerState)
    (newId staff_id : ℕ) (staff_name : String) (ps pe : ℤ)
    (notes : String) (elig : List CommissionTransaction)
    (helig : elig = st.transactions.filter (payoutEligible staff_id ps pe))
    (gross : ℚ) (hgross : gross = (elig.map (·.commission_amount)).sum) :
    ((create_payout config st newId staff_id staff_name ps pe
        notes).2.1 = none ∧
     (create_payout config st newId staff_id staff_name ps pe
        notes).2.2.isSome = true ∧
     (create_payout config st newId staff_id staff_name ps pe notes).1 =
        st ↔
      elig = [] ∨ (0 < config.minimum_payout_amount ∧
        gross < config.minimum_payout_amount)) ∧
    (elig ≠ [] →
     ¬(0 < config.minimum_payout_amount ∧
        gross < config.minimum_payout_amount) →
     ∃ pOut : CommissionPayout,
       (create_payout config st newId staff_id staff_name ps pe
          notes).2.1 = some pOut ∧
       (create_payout config st newId staff_id staff_name ps pe
          notes).2.2 = none ∧
       pOut.status = "pending" ∧
       pOut.gross_amount = gross ∧
       pOut.tax_amount = (elig.map (·.tax_amount)).sum ∧
       pOut.net_amount = gross - pOut.tax_amount ∧
       pOut.transaction_count = elig.length ∧
       (create_payout config st newId staff_id staff_name ps pe
          notes).1.payouts = st.payouts ++ [pOut] ∧
       (create_payout config st newId staff_id staff_name ps pe
          notes).1.transactions = st.transactions.map (fun t =>
            if payoutEligible staff_id ps pe t then
              { t with payout := some newId }
            else t) ∧
       (∀ t ∈ st.transactions, payoutEligible staff_id ps pe t = true →
         t.status = "approved" ∧
         { t with payout := some newId } ∈
           (create_payout config st newId staff_id staff_name ps pe
              notes).1.transactions)) := by
  subst helig
  subst hgross
  by_cases hE :
      (st.transactions.filter (payoutEligible staff_id ps pe)).isEmpty =
        true
  · have hnil : st.transactions.filter (payoutEligible staff_id ps pe) =
        [] := by simpa using hE
    constructor
    · simp [create_payout, hE, hnil]
    · intro hne _
      exact absurd hnil hne
  · have hne : st.transactions.filter (payoutEligible staff_id ps pe) ≠
        [] := by simpa using hE
    by_cases hm : (decide (config.minimum_payout_amount > 0) &&
        decide (((st.transactions.filter
            (payoutEligible staff_id ps pe)).map
          (·.commission_amount)).sum < config.minimum_payout_amount)) =
        true
    · have hm' : 0 < config.minimum_payout_amount ∧
          ((st.transactions.filter (payoutEligible staff_id ps pe)).map
            (·.commission_amount)).sum < config.minimum_payout_amount :=
        by simpa using hm
      constructor
      · simp [create_payout, hE, hm, hm']
      · intro _ hc
        exact absurd hm' hc
    · have hm' : ¬(0 < config.minimum_payout_amount ∧
          ((st.transactions.filter (payoutEligible staff_id ps pe)).map
            (·.commission_amount)).sum < config.minimum_payout_amount) :=
        by simpa using hm
      constructor
      · simp [create_payout, hE, hm, hne, hm']
      · intro _ _
        refine ⟨{ id := newId, staff_id := staff_id,
                  staff_name := staff_name, period_start := ps,
                  period_end := pe,
                  gross_amount := ((st.transactions.filter
                      (payoutEligible staff_id ps pe)).map
                    (·.commission_amount)).sum,
                  tax_amount := ((st.transactions.filter
                      (payoutEligible staff_id ps pe)).map
                    (·.tax_amount)).sum,
                  adjustments_amount := 0,
                  net_amount := ((st.transactions.filter
                      (payoutEligible staff_id ps pe)).map
                    (·.commission_amount)).sum -
                    ((st.transactions.filter
                        (payoutEligible staff_id ps pe)).map
                      (·.tax_amount)).sum,
                  transaction_count := (st.transactions.filter
                    (payoutEligible staff_id ps pe)).length,
                  status := "pending", notes := notes },
              ?_, ?_, rfl, rfl, rfl, rfl, rfl, ?_, ?_, ?_⟩
        · simp [create_payout, hE, hm]
        · simp [create_payout, hE, hm]
        · simp [create_payout, hE, hm]
        · simp [create_payout, hE, hm]
        · intro t ht hel
          constructor
          · have hel2 := hel
            simp only [payoutEligible, Bool.and_eq_true, beq_iff_eq]
              at hel2
            exact hel2.1.1.1.2
          · simp only [create_payout, hE, hm, Bool.false_eq_true,
              if_false]
            exact List.mem_map.mpr ⟨t, ht, by simp [hel]⟩

/-- C5 witness: a payout is created for the concrete one-transaction
ledger with a zero minimum threshold. -/
theorem C5_create_payout_witness :
    (create_payout {} stOne 10 1 ("Alice") 0 30 ("")).2.2 = none := by
  obtain ⟨pOut, _, h2, _⟩ :=
    (C5_create_payout {} stOne 10 1 ("Alice") 0 30 ("")
      (stOne.transactions.filter (payoutEligible 1 0 30)) rfl _ rfl).2
      (by decide) (by norm_num)
  exact h2

end Commissions
